import Mathlib

/-!
# meas_mosaic: the camera-geometry shim (`shimCameraGeom.cc`)

A shallow embedding of `src/src/shimCameraGeom.cc`.

* `double` is an arbitrary linearly ordered field `α` (rounding is not modelled); the
  definitions are computable and can be run over `ℚ`.
* `lsst::geom::Angle` is represented by its measure in degrees, so `x * degrees` is `x`
  and `asDegrees()` is the identity.
* `std::cos` and `std::sin` on an `Angle` are the two fields of `Trig α`; over `ℝ` they are
  `Real.cos` and `Real.sin` of the measure in radians,
  `Trig.ofRad Real.cos Real.sin (Real.pi / 180)`. Statements that need no fact about cosine
  and sine hold for every `Trig α`.
* A thrown `pex::exceptions::InvalidParameterError` is the `error` case of `Except`; the
  four values formatted into its message are the fields of `InvalidParameterError`.
* The `afw::cameraGeom::Detector` is a record of the values its accessors return.
-/

set_option linter.unusedSectionVars false

namespace MeasMosaic

/-- The type `lsst::geom::Point2D`: a position. -/
structure Point2D (α : Type) where
  x : α
  y : α
  deriving DecidableEq, Repr

/-- The type `lsst::geom::Extent2D`: a displacement. -/
structure Extent2D (α : Type) where
  x : α
  y : α
  deriving DecidableEq, Repr

/-- The type `lsst::geom::LinearTransform`: a 2x2 matrix, row by row. -/
structure LinearTransform (α : Type) where
  xx : α
  xy : α
  yx : α
  yy : α
  deriving DecidableEq, Repr

/-- The two coordinate systems of `afw::cameraGeom` that the shim names. -/
inductive CameraSys where
  | PIXELS
  | FOCAL_PLANE
  deriving DecidableEq, Repr

/-- The type `afw::cameraGeom::Orientation`, as far as the shim reads it: the quarter count
and the yaw, an `Angle` held in degrees. -/
structure Orientation (α : Type) where
  getNQuarter : Int
  getYaw : α

/-- The type `lsst::geom::Box2I`: integer pixel box given by its minimum corner and its
dimensions. -/
structure Box2I where
  minX : Int
  minY : Int
  getWidth : Int
  getHeight : Int
  deriving DecidableEq, Repr

/-- The detector descriptor `afw::cameraGeom::Detector`, as the record of what the accessors
called by the shim return. -/
structure Detector (α : Type) where
  getOrientation : Orientation α
  getSerial : Int
  getPixelSize : Extent2D α
  getCenter : CameraSys → Point2D α
  getBBox : Box2I
  transform : Point2D α → CameraSys → CameraSys → Point2D α

/-- The values formatted into the message of the `InvalidParameterError` thrown by `getYaw`,
in the order of the format arguments. -/
structure InvalidParameterError (α : Type) where
  yawDeg : α
  nQuarter : Int
  serial : Int
  absDeg : α
  deriving DecidableEq, Repr

/-- The functions `std::cos` and `std::sin` applied to an `Angle` (held in degrees). -/
structure Trig (α : Type) where
  cos : α → α
  sin : α → α

section Defs

variable {α : Type} [LinearOrderedField α]

/-- Cosine and sine of an angle in degrees from cosine and sine of radians, `degrees` being
the radians in one degree (`lsst::geom::degrees`, that is `π / 180`). -/
def Trig.ofRad (c s : α → α) (degrees : α) : Trig α :=
  ⟨fun d => c (d * degrees), fun d => s (d * degrees)⟩

/-- The factory `LinearTransform::makeScaling(s, t)`: the diagonal matrix. -/
def LinearTransform.makeScaling (s t : α) : LinearTransform α :=
  ⟨s, 0, 0, t⟩

/-- The call `LinearTransform::operator()(Point2D)`: matrix times vector. -/
def LinearTransform.apply (m : LinearTransform α) (p : Point2D α) : Point2D α :=
  ⟨m.xx * p.x + m.xy * p.y, m.yx * p.x + m.yy * p.y⟩

/-- The conversion `Extent2D(Point2D)`: the displacement of a point from the origin. -/
def Extent2D.ofPoint (p : Point2D α) : Extent2D α :=
  ⟨p.x, p.y⟩

/-- The difference `Point2D - Point2D`, an `Extent2D`. -/
def Point2D.sub (p q : Point2D α) : Extent2D α :=
  ⟨p.x - q.x, p.y - q.y⟩

/-- The sum `Point2D + Extent2D`, a `Point2D`. -/
def Point2D.addExtent (p : Point2D α) (e : Extent2D α) : Point2D α :=
  ⟨p.x + e.x, p.y + e.y⟩

/-- The update `Extent2D -= Extent2D`. -/
def Extent2D.sub (e f : Extent2D α) : Extent2D α :=
  ⟨e.x - f.x, e.y - f.y⟩

/-- Source function `getNQuarter` (shimCameraGeom.cc:8-10). -/
def getNQuarter (det : Detector α) : Int :=
  det.getOrientation.getNQuarter

/-- Source function `getYaw` (shimCameraGeom.cc:12-28). `%` on `int` is the truncating
remainder `Int.tmod`; `nQuarter*90.0` is a product of doubles. -/
def getYaw (det : Detector α) : Except (InvalidParameterError α) α :=
  let deg := det.getOrientation.getYaw
  let nQuarter := det.getOrientation.getNQuarter
  let deg := if nQuarter.tmod 4 ≠ 0 then det.getOrientation.getYaw - (nQuarter : α) * 90 else deg
  if |deg| ≥ 90 then
    .error ⟨det.getOrientation.getYaw, getNQuarter det, det.getSerial, |deg|⟩
  else
    .ok deg

/-- Source function `makeScalingMmToPx` (shimCameraGeom.cc:30-32). -/
def makeScalingMmToPx (pSize : Extent2D α) : LinearTransform α :=
  LinearTransform.makeScaling (1 / pSize.x) (1 / pSize.y)

/-- Source function `getCenterInFpPixels` (shimCameraGeom.cc:34-37). -/
def getCenterInFpPixels (det : Detector α) : Point2D α :=
  let scaling := makeScalingMmToPx det.getPixelSize
  scaling.apply (det.getCenter CameraSys.FOCAL_PLANE)

/-- Source function `getCenterInDetectorPixels` (shimCameraGeom.cc:39-46). -/
def getCenterInDetectorPixels (det : Detector α) : Point2D α :=
  let center := det.getCenter CameraSys.PIXELS
  if (getNQuarter det).tmod 2 ≠ 0 then
    ⟨center.y, center.x⟩
  else
    center

/-- Source function `getWidth` (shimCameraGeom.cc:48-50). -/
def getWidth (det : Detector α) : Int :=
  det.getBBox.getWidth

/-- Source function `getHeight` (shimCameraGeom.cc:52-54). -/
def getHeight (det : Detector α) : Int :=
  det.getBBox.getHeight

/-- Source function `detPxToFpPx` (shimCameraGeom.cc:56-59). -/
def detPxToFpPx (det : Detector α) (detPt : Point2D α) : Point2D α :=
  let scaling := makeScalingMmToPx det.getPixelSize
  scaling.apply (det.transform detPt CameraSys.PIXELS CameraSys.FOCAL_PLANE)

/-- Source function `detPxToFpPxRot` (shimCameraGeom.cc:61-72). `getYaw` is called twice,
as in the source; either call may throw. -/
def detPxToFpPxRot (T : Trig α) (det : Detector α) (detPt : Point2D α) :
    Except (InvalidParameterError α) (Point2D α) := do
  let cosYaw := T.cos (← getYaw det)
  let sinYaw := T.sin (← getYaw det)
  let centerDet := getCenterInDetectorPixels det
  let centerFp := getCenterInFpPixels det
  let offset : Extent2D α :=
    ⟨cosYaw * detPt.x - sinYaw * detPt.y, sinYaw * detPt.x + cosYaw * detPt.y⟩
  let offset := offset.sub (Extent2D.ofPoint centerDet)
  return centerFp.addExtent offset

/-- Source function `computeX0Y0` (shimCameraGeom.cc:74-87). -/
def computeX0Y0 (T : Trig α) (det : Detector α) (x0 y0 : α) :
    Except (InvalidParameterError α) (Point2D α) := do
  let cosYaw := T.cos (← getYaw det)
  let sinYaw := T.sin (← getYaw det)
  let off := (getCenterInFpPixels det).sub (getCenterInDetectorPixels det)
  let newXY0 : Point2D α :=
    ⟨(off.x + x0) * cosYaw + (off.y + y0) * sinYaw,
     -(off.x + x0) * sinYaw + (off.y + y0) * cosYaw⟩
  return newXY0

end Defs

/-! ## Statement-side definitions and concrete detectors -/

section SpecDefs

variable {α : Type} [LinearOrderedField α]

/-- The residual `R` of the specification (section 4.2, step 2): `Y - n*90` when
`n mod 4 ≠ 0` and `Y` otherwise, with the mathematical (non-negative) remainder. -/
def specResidual (Y : α) (n : Int) : α :=
  if n % 4 ≠ 0 then Y - 90 * (n : α) else Y

/-- A detector with the given quarter count and raw yaw, serial number 7, unit pixels,
both centers at the origin, a 3 by 5 box and the identity as native transform. -/
def plainDetector (n : Int) (Y : α) : Detector α :=
  { getOrientation := ⟨n, Y⟩
    getSerial := 7
    getPixelSize := ⟨1, 1⟩
    getCenter := fun _ => ⟨0, 0⟩
    getBBox := ⟨0, 0, 3, 5⟩
    transform := fun p _ _ => p }

/-- A detector with the given quarter count and raw yaw whose centers are not at the origin:
serial number 7, pixel size (2, 4) mm, pixel-frame center (1, 2), focal-plane center
(6, 20) mm, a 3 by 5 box, and the pixel pitch scaling as native transform. -/
def offsetDetector (n : Int) (Y : α) : Detector α :=
  { getOrientation := ⟨n, Y⟩
    getSerial := 7
    getPixelSize := ⟨2, 4⟩
    getCenter := fun sys =>
      match sys with
      | CameraSys.PIXELS => ⟨1, 2⟩
      | CameraSys.FOCAL_PLANE => ⟨6, 20⟩
    getBBox := ⟨0, 0, 3, 5⟩
    transform := fun p _ _ => ⟨2 * p.x, 4 * p.y⟩ }

/-- The native pixel to focal-plane-mm transform of `det` is exactly the rotation by `θ`
degrees followed by the pixel pitch scaling (no translation, shear or other scale). -/
def IsRotationThenPitch (T : Trig α) (det : Detector α) (θ : α) : Prop :=
  ∀ p : Point2D α,
    det.transform p CameraSys.PIXELS CameraSys.FOCAL_PLANE =
      ⟨det.getPixelSize.x * (T.cos θ * p.x - T.sin θ * p.y),
        det.getPixelSize.y * (T.sin θ * p.x + T.cos θ * p.y)⟩

/-- The point `p` lies in the pixel box `b`. -/
def Box2I.contains (b : Box2I) (p : Point2D α) : Prop :=
  (b.minX : α) ≤ p.x ∧ p.x < (b.minX : α) + (b.getWidth : α) ∧
  (b.minY : α) ≤ p.y ∧ p.y < (b.minY : α) + (b.getHeight : α)

/-- A detector mounted a quarter turn round: quarter count 1, raw yaw 90 degrees, unit
pixels, a 3 by 5 box with pixel-frame center (1, 2), the quarter turn `(x, y) ↦ (-y, x)`
as native transform, and the image (-2, 1) of the pixel-frame center as focal-plane
center. -/
def quarterTurnDetector : Detector α :=
  { getOrientation := ⟨1, 90⟩
    getSerial := 7
    getPixelSize := ⟨1, 1⟩
    getCenter := fun sys =>
      match sys with
      | CameraSys.PIXELS => ⟨1, 2⟩
      | CameraSys.FOCAL_PLANE => ⟨-2, 1⟩
    getBBox := ⟨0, 0, 3, 5⟩
    transform := fun p _ _ => ⟨-p.y, p.x⟩ }

/-- The native pixel to focal-plane-mm transform of `det` is exactly the rotation by `θ`
degrees followed by the pixel pitch scaling and the translation by `f` mm (no shear or other
scale); `f` is the image of the pixel origin. With `f = (0, 0)` this is
`IsRotationThenPitch`. -/
def IsRotationPitchShift (T : Trig α) (det : Detector α) (θ : α) (f : Point2D α) : Prop :=
  ∀ p : Point2D α,
    det.transform p CameraSys.PIXELS CameraSys.FOCAL_PLANE =
      ⟨det.getPixelSize.x * (T.cos θ * p.x - T.sin θ * p.y) + f.x,
        det.getPixelSize.y * (T.sin θ * p.x + T.cos θ * p.y) + f.y⟩

/-- A detector with quarter count `n` and raw yaw `Y` whose native transform is the rotation
by `90*n + t` degrees, the pixel pitch (2, 4) mm and the translation by (4, 12) mm: serial
number 7, pixel-frame center (1, 2), focal-plane center (6, 20) mm, a 3 by 5 box. -/
def shiftedDetector (T : Trig α) (n : Int) (Y t : α) : Detector α :=
  { getOrientation := ⟨n, Y⟩
    getSerial := 7
    getPixelSize := ⟨2, 4⟩
    getCenter := fun sys =>
      match sys with
      | CameraSys.PIXELS => ⟨1, 2⟩
      | CameraSys.FOCAL_PLANE => ⟨6, 20⟩
    getBBox := ⟨0, 0, 3, 5⟩
    transform := fun p _ _ =>
      ⟨2 * (T.cos (90 * (n : α) + t) * p.x - T.sin (90 * (n : α) + t) * p.y) + 4,
        4 * (T.sin (90 * (n : α) + t) * p.x + T.cos (90 * (n : α) + t) * p.y) + 12⟩ }

end SpecDefs

/-! ## Shared lemmas -/

section Lemmas

variable {α : Type} [LinearOrderedField α]

theorem tmod_four_ne_zero_iff (n : Int) : n.tmod 4 ≠ 0 ↔ n % 4 ≠ 0 := by
  rw [not_iff_not, ← Int.dvd_iff_tmod_eq_zero, Int.dvd_iff_emod_eq_zero]

theorem tmod_two_ne_zero_iff (n : Int) : n.tmod 2 ≠ 0 ↔ Odd n := by
  rw [← Int.not_even_iff_odd, not_iff_not, ← Int.dvd_iff_tmod_eq_zero, even_iff_two_dvd]

/-- The value `getYaw` tests against 90 is the residual of the specification. -/
theorem getYaw_eq (det : Detector α) :
    getYaw det =
      if 90 ≤ |specResidual det.getOrientation.getYaw det.getOrientation.getNQuarter| then
        .error ⟨det.getOrientation.getYaw, det.getOrientation.getNQuarter, det.getSerial,
          |specResidual det.getOrientation.getYaw det.getOrientation.getNQuarter|⟩
      else
        .ok (specResidual det.getOrientation.getYaw det.getOrientation.getNQuarter) := by
  unfold getYaw specResidual getNQuarter
  by_cases h : det.getOrientation.getNQuarter % 4 ≠ 0
  · have h' := (tmod_four_ne_zero_iff _).2 h
    simp [h, h', mul_comm]
  · have h' := (not_congr (tmod_four_ne_zero_iff _)).2 h
    simp [h, h']

theorem getYaw_ok_of_lt (det : Detector α)
    (h : |specResidual det.getOrientation.getYaw det.getOrientation.getNQuarter| < 90) :
    getYaw det = .ok (specResidual det.getOrientation.getYaw det.getOrientation.getNQuarter) := by
  rw [getYaw_eq, if_neg (not_le.2 h)]

theorem getYaw_error_of_le (det : Detector α)
    (h : 90 ≤ |specResidual det.getOrientation.getYaw det.getOrientation.getNQuarter|) :
    getYaw det =
      .error ⟨det.getOrientation.getYaw, det.getOrientation.getNQuarter, det.getSerial,
        |specResidual det.getOrientation.getYaw det.getOrientation.getNQuarter|⟩ := by
  rw [getYaw_eq, if_pos h]

theorem specResidual_of_zero_or_not_dvd (Y : α) (n : Int) (h : n = 0 ∨ n % 4 ≠ 0) :
    specResidual Y n = Y - (n : α) * 90 := by
  unfold specResidual
  rcases h with h | h
  · subst h; simp
  · rw [if_pos h, mul_comm]

theorem detPxToFpPxRot_of_ok (T : Trig α) (det : Detector α) (p : Point2D α) (t : α)
    (h : getYaw det = .ok t) :
    detPxToFpPxRot T det p =
      .ok ⟨(getCenterInFpPixels det).x
            + (T.cos t * p.x - T.sin t * p.y - (getCenterInDetectorPixels det).x),
          (getCenterInFpPixels det).y
            + (T.sin t * p.x + T.cos t * p.y - (getCenterInDetectorPixels det).y)⟩ := by
  unfold detPxToFpPxRot
  rw [h]
  rfl

theorem detPxToFpPxRot_of_error (T : Trig α) (det : Detector α) (p : Point2D α)
    (e : InvalidParameterError α) (h : getYaw det = .error e) :
    detPxToFpPxRot T det p = .error e := by
  unfold detPxToFpPxRot
  rw [h]
  rfl

theorem computeX0Y0_of_ok (T : Trig α) (det : Detector α) (x0 y0 t : α)
    (h : getYaw det = .ok t) :
    computeX0Y0 T det x0 y0 =
      .ok ⟨((getCenterInFpPixels det).x - (getCenterInDetectorPixels det).x + x0) * T.cos t
            + ((getCenterInFpPixels det).y - (getCenterInDetectorPixels det).y + y0) * T.sin t,
          -((getCenterInFpPixels det).x - (getCenterInDetectorPixels det).x + x0) * T.sin t
            + ((getCenterInFpPixels det).y - (getCenterInDetectorPixels det).y + y0)
                * T.cos t⟩ := by
  unfold computeX0Y0
  rw [h]
  rfl

theorem computeX0Y0_of_error (T : Trig α) (det : Detector α) (x0 y0 : α)
    (e : InvalidParameterError α) (h : getYaw det = .error e) :
    computeX0Y0 T det x0 y0 = .error e := by
  unfold computeX0Y0
  rw [h]
  rfl

theorem getCenterInDetectorPixels_of_odd (det : Detector α)
    (h : Odd det.getOrientation.getNQuarter) :
    getCenterInDetectorPixels det =
      ⟨(det.getCenter CameraSys.PIXELS).y, (det.getCenter CameraSys.PIXELS).x⟩ := by
  unfold getCenterInDetectorPixels getNQuarter
  simp only [(tmod_two_ne_zero_iff _).2 h, ne_eq, not_false_eq_true, if_true]

theorem getCenterInDetectorPixels_of_even (det : Detector α)
    (h : Even det.getOrientation.getNQuarter) :
    getCenterInDetectorPixels det = det.getCenter CameraSys.PIXELS := by
  unfold getCenterInDetectorPixels getNQuarter
  have h' : ¬ (det.getOrientation.getNQuarter.tmod 2 ≠ 0) := by
    rw [tmod_two_ne_zero_iff, Int.not_odd_iff_even]
    exact h
  simp only [if_neg h']

end Lemmas

/-! ## The yaw normaliser -/

section Yaw

variable {α : Type} [LinearOrderedField α]

/-- C1: with `R = Y - 90*n` when `n mod 4 ≠ 0` and `R = Y` otherwise, `getYaw` returns `R`
when `|R| < 90`, throws the `InvalidParameterError` (carrying raw yaw, quarter count, serial
and `|R|`) when `|R| ≥ 90`, and so throws if and only if `|R| ≥ 90`; for every integer
quarter count. -/
theorem getYaw_residual_spec (det : Detector α) :
    (|specResidual det.getOrientation.getYaw det.getOrientation.getNQuarter| < 90 →
        getYaw det =
          .ok (specResidual det.getOrientation.getYaw det.getOrientation.getNQuarter)) ∧
    (90 ≤ |specResidual det.getOrientation.getYaw det.getOrientation.getNQuarter| →
        getYaw det =
          .error ⟨det.getOrientation.getYaw, det.getOrientation.getNQuarter, det.getSerial,
            |specResidual det.getOrientation.getYaw det.getOrientation.getNQuarter|⟩) ∧
    ((∃ e, getYaw det = .error e) ↔
        90 ≤ |specResidual det.getOrientation.getYaw det.getOrientation.getNQuarter|) := by
  refine ⟨getYaw_ok_of_lt det, getYaw_error_of_le det, ?_⟩
  constructor
  · rintro ⟨e, he⟩
    by_contra hlt
    rw [getYaw_ok_of_lt det (not_le.1 hlt)] at he
    cases he
  · intro h
    exact ⟨_, getYaw_error_of_le det h⟩

/-- Witness for C1: quarter count -1 with raw yaw -80 gives residual 10, which is returned;
quarter count 1 with raw yaw 0 gives residual -90, which is rejected at the boundary. -/
theorem getYaw_residual_spec_witness :
    getYaw (plainDetector (-1) (-80) : Detector ℚ) = .ok 10 ∧
    getYaw (plainDetector 1 0 : Detector ℚ) = .error ⟨0, 1, 7, 90⟩ := by
  constructor
  · have h := (getYaw_residual_spec (plainDetector (-1) (-80) : Detector ℚ)).1
      (by simp [specResidual, plainDetector]; norm_num [abs_lt])
    rw [h]; simp [specResidual, plainDetector]; norm_num
  · have h := (getYaw_residual_spec (plainDetector 1 0 : Detector ℚ)).2.1
      (by simp [specResidual, plainDetector])
    rw [h]; simp [specResidual, plainDetector]

/-- C2, counterexample: quarter count 4 with raw yaw 350 has `|Y - nQuarter*90| = 10 < 90`,
yet `getYaw` throws, because for a multiple of 4 it tests the raw yaw itself. -/
theorem getYaw_consistent_counterexample :
    |(350 : ℚ) - ((4 : Int) : ℚ) * 90| < 90 ∧
    getYaw (plainDetector 4 350 : Detector ℚ) = .error ⟨350, 4, 7, 350⟩ ∧
    getYaw (plainDetector 4 350 : Detector ℚ) ≠ .ok (350 - ((4 : Int) : ℚ) * 90) := by
  have h : getYaw (plainDetector 4 350 : Detector ℚ) = .error ⟨350, 4, 7, 350⟩ := by
    rw [getYaw_eq]; simp [specResidual, plainDetector]; norm_num
  refine ⟨by norm_num [abs_lt], h, ?_⟩
  rw [h]
  intro h'
  cases h'

/-- C2, amended: when the quarter count is 0 or not a multiple of 4 and
`|Y - nQuarter*90| < 90`, `getYaw` returns exactly `Y - nQuarter*90`. -/
theorem getYaw_consistent (det : Detector α)
    (hn : det.getOrientation.getNQuarter = 0 ∨ det.getOrientation.getNQuarter % 4 ≠ 0)
    (h : |det.getOrientation.getYaw - (det.getOrientation.getNQuarter : α) * 90| < 90) :
    getYaw det = .ok (det.getOrientation.getYaw - (det.getOrientation.getNQuarter : α) * 90) := by
  rw [← specResidual_of_zero_or_not_dvd _ _ hn] at h ⊢
  exact getYaw_ok_of_lt det h

/-- Witness for C2 (amended): quarter count 3, raw yaw 300, residual 30. -/
theorem getYaw_consistent_witness :
    getYaw (plainDetector 3 300 : Detector ℚ) = .ok (300 - ((3 : Int) : ℚ) * 90) :=
  getYaw_consistent (plainDetector 3 300 : Detector ℚ) (Or.inr (by decide))
    (by simp [plainDetector]; norm_num [abs_lt])

/-- C3, counterexample: quarter count 4 with raw yaw -10 has `|Y - nQuarter*90| = 370 ≥ 90`,
yet `getYaw` returns -10, because for a multiple of 4 it tests the raw yaw itself. -/
theorem getYaw_inconsistent_counterexample :
    90 ≤ |(-10 : ℚ) - ((4 : Int) : ℚ) * 90| ∧
    getYaw (plainDetector 4 (-10) : Detector ℚ) = .ok (-10) := by
  refine ⟨by norm_num [le_abs], ?_⟩
  rw [getYaw_eq]; simp [specResidual, plainDetector]; norm_num [abs_lt]

/-- C3, amended: when the quarter count is 0 or not a multiple of 4 and
`|Y - nQuarter*90| ≥ 90`, `getYaw` throws the `InvalidParameterError`. -/
theorem getYaw_inconsistent (det : Detector α)
    (hn : det.getOrientation.getNQuarter = 0 ∨ det.getOrientation.getNQuarter % 4 ≠ 0)
    (h : 90 ≤ |det.getOrientation.getYaw - (det.getOrientation.getNQuarter : α) * 90|) :
    getYaw det =
      .error ⟨det.getOrientation.getYaw, det.getOrientation.getNQuarter, det.getSerial,
        |det.getOrientation.getYaw - (det.getOrientation.getNQuarter : α) * 90|⟩ := by
  rw [← specResidual_of_zero_or_not_dvd _ _ hn] at h ⊢
  exact getYaw_error_of_le det h

/-- Witness for C3 (amended): quarter count 0, raw yaw 90, the boundary. -/
theorem getYaw_inconsistent_witness :
    getYaw (plainDetector 0 90 : Detector ℚ) =
      .error ⟨90, 0, 7, |(90 : ℚ) - ((0 : Int) : ℚ) * 90|⟩ :=
  getYaw_inconsistent (plainDetector 0 90 : Detector ℚ) (Or.inl rfl)
    (by simp [plainDetector])

end Yaw

/-! ## The point transformer anchored at the centers, and the origin recomputation -/

section Rotated

variable {α : Type} [LinearOrderedField α]

/-- C4, counterexample: raw yaw 60 degrees with quarter count 0 is accepted by `getYaw`, the
pixel-frame center is (1, 2) and the focal-plane center in pixels is (3, 5), yet the image
of the pixel-frame center under `detPxToFpPxRot` is not the focal-plane center: the offset
`R c - c` does not cancel. -/
theorem detPxToFpPxRot_center_counterexample :
    getYaw (offsetDetector 0 60 : Detector ℝ) = .ok 60 ∧
    detPxToFpPxRot (Trig.ofRad Real.cos Real.sin (Real.pi / 180))
        (offsetDetector 0 60 : Detector ℝ)
        (getCenterInDetectorPixels (offsetDetector 0 60 : Detector ℝ)) ≠
      .ok (getCenterInFpPixels (offsetDetector 0 60 : Detector ℝ)) := by
  have hy : getYaw (offsetDetector 0 60 : Detector ℝ) = .ok 60 := by
    rw [getYaw_eq]; simp [specResidual, offsetDetector]; norm_num [abs_lt]
  refine ⟨hy, ?_⟩
  rw [detPxToFpPxRot_of_ok _ _ _ _ hy]
  intro h
  have hx := congrArg Point2D.x (Except.ok.inj h)
  have hang : (60 : ℝ) * (Real.pi / 180) = Real.pi / 3 := by ring
  have hs : (0 : ℝ) ≤ √3 := Real.sqrt_nonneg 3
  simp only [Trig.ofRad, hang, Real.cos_pi_div_three, getCenterInDetectorPixels,
    getCenterInFpPixels, getNQuarter, offsetDetector] at hx
  norm_num at hx
  linarith

/-- C4, amended: on a detector on which `getYaw` returns `t`, `detPxToFpPxRot` sends the
pixel-frame center `c` to the focal-plane center plus `R_t c - c`; it is the focal-plane
center whenever the rotation by `t` fixes `c` (as for yaw 0, or `c` at the origin). -/
theorem detPxToFpPxRot_center (T : Trig α) (det : Detector α) (t : α)
    (h : getYaw det = .ok t) :
    detPxToFpPxRot T det (getCenterInDetectorPixels det) =
      .ok ⟨(getCenterInFpPixels det).x
            + (T.cos t * (getCenterInDetectorPixels det).x
                - T.sin t * (getCenterInDetectorPixels det).y
                - (getCenterInDetectorPixels det).x),
          (getCenterInFpPixels det).y
            + (T.sin t * (getCenterInDetectorPixels det).x
                + T.cos t * (getCenterInDetectorPixels det).y
                - (getCenterInDetectorPixels det).y)⟩ ∧
    (T.cos t * (getCenterInDetectorPixels det).x - T.sin t * (getCenterInDetectorPixels det).y
          = (getCenterInDetectorPixels det).x →
      T.sin t * (getCenterInDetectorPixels det).x + T.cos t * (getCenterInDetectorPixels det).y
          = (getCenterInDetectorPixels det).y →
      detPxToFpPxRot T det (getCenterInDetectorPixels det) = .ok (getCenterInFpPixels det)) := by
  refine ⟨detPxToFpPxRot_of_ok T det _ t h, ?_⟩
  intro hx hy
  rw [detPxToFpPxRot_of_ok T det _ t h, hx, hy]
  simp

/-- Witness for C4 (amended): quarter count 1 with raw yaw 90 has yaw 0, and the swapped
pixel-frame center (2, 1) is sent to the focal-plane center (3, 5). -/
theorem detPxToFpPxRot_center_witness :
    detPxToFpPxRot (Trig.ofRad Real.cos Real.sin (Real.pi / 180))
        (offsetDetector 1 90 : Detector ℝ) ⟨2, 1⟩ = .ok ⟨3, 5⟩ := by
  have hy : getYaw (offsetDetector 1 90 : Detector ℝ) = .ok 0 := by
    rw [getYaw_eq]; simp [specResidual, offsetDetector]
  have hc : getCenterInDetectorPixels (offsetDetector 1 90 : Detector ℝ) = ⟨2, 1⟩ := by
    rw [getCenterInDetectorPixels_of_odd _ (by decide)]
    rfl
  have hf : getCenterInFpPixels (offsetDetector 1 90 : Detector ℝ) = ⟨3, 5⟩ := by
    simp [getCenterInFpPixels, makeScalingMmToPx, LinearTransform.makeScaling,
      LinearTransform.apply, offsetDetector]
    norm_num
  have h := (detPxToFpPxRot_center (Trig.ofRad Real.cos Real.sin (Real.pi / 180))
    (offsetDetector 1 90 : Detector ℝ) 0 hy).2
    (by simp [Trig.ofRad]) (by simp [Trig.ofRad])
  rw [hc, hf] at h
  exact h

/-- C5, counterexample: the detector with raw yaw 90, quarter count 0 and coinciding centers
(`off = (0, 0)`) is rejected by `getYaw` at the boundary `|R| = 90`, so `computeX0Y0(det, 5, 0)`
throws and does not return `(0, -5)`. -/
theorem computeX0Y0_yaw90_counterexample :
    getCenterInFpPixels (plainDetector 0 90 : Detector ℝ)
        = getCenterInDetectorPixels (plainDetector 0 90 : Detector ℝ) ∧
    computeX0Y0 (Trig.ofRad Real.cos Real.sin (Real.pi / 180))
        (plainDetector 0 90 : Detector ℝ) 5 0 = .error ⟨90, 0, 7, 90⟩ ∧
    computeX0Y0 (Trig.ofRad Real.cos Real.sin (Real.pi / 180))
        (plainDetector 0 90 : Detector ℝ) 5 0 ≠ .ok ⟨0, -5⟩ := by
  have hy : getYaw (plainDetector 0 90 : Detector ℝ) = .error ⟨90, 0, 7, 90⟩ := by
    rw [getYaw_eq]; simp [specResidual, plainDetector]
  refine ⟨?_, computeX0Y0_of_error _ _ _ _ _ hy, ?_⟩
  · simp [getCenterInFpPixels, getCenterInDetectorPixels, getNQuarter, makeScalingMmToPx,
      LinearTransform.makeScaling, LinearTransform.apply, plainDetector]
  · rw [computeX0Y0_of_error _ _ _ _ _ hy]
    intro h
    cases h

/-- C5, amended: on a detector with raw yaw 90 and quarter count 0, `computeX0Y0` throws the
`InvalidParameterError` of `getYaw` (raw yaw 90, quarter count 0, the serial, `|R| = 90`)
for every origin; on a detector with coinciding centers on which `getYaw` returns `t`,
`computeX0Y0(det, 5, 0)` is `(5 cos t, -5 sin t)`. -/
theorem computeX0Y0_yaw90 (T : Trig α) (det : Detector α) :
    (det.getOrientation.getYaw = 90 → det.getOrientation.getNQuarter = 0 →
      ∀ x0 y0 : α, computeX0Y0 T det x0 y0 = .error ⟨90, 0, det.getSerial, 90⟩) ∧
    (∀ t : α, getYaw det = .ok t → getCenterInFpPixels det = getCenterInDetectorPixels det →
      computeX0Y0 T det 5 0 = .ok ⟨5 * T.cos t, -5 * T.sin t⟩) := by
  constructor
  · intro hY hn x0 y0
    apply computeX0Y0_of_error
    rw [getYaw_eq, hY, hn]
    simp [specResidual]
  · intro t ht hc
    rw [computeX0Y0_of_ok T det 5 0 t ht, hc]
    simp

/-- Witness for C5 (amended): raw yaw 90 with quarter count 0 throws; raw yaw 100 with
quarter count 1 and both centers at the origin has yaw 10 and gives `(5 cos 10°, -5 sin 10°)`. -/
theorem computeX0Y0_yaw90_witness :
    computeX0Y0 (Trig.ofRad Real.cos Real.sin (Real.pi / 180))
        (offsetDetector 0 90 : Detector ℝ) 5 0 = .error ⟨90, 0, 7, 90⟩ ∧
    computeX0Y0 (Trig.ofRad Real.cos Real.sin (Real.pi / 180))
        (plainDetector 1 100 : Detector ℝ) 5 0 =
      .ok ⟨5 * Real.cos (10 * (Real.pi / 180)), -5 * Real.sin (10 * (Real.pi / 180))⟩ := by
  constructor
  · exact (computeX0Y0_yaw90 (Trig.ofRad Real.cos Real.sin (Real.pi / 180))
      (offsetDetector 0 90 : Detector ℝ)).1 rfl rfl 5 0
  · have hy : getYaw (plainDetector 1 100 : Detector ℝ) = .ok 10 := by
      rw [getYaw_eq]; simp [specResidual, plainDetector]; norm_num [abs_lt]
    exact (computeX0Y0_yaw90 (Trig.ofRad Real.cos Real.sin (Real.pi / 180))
      (plainDetector 1 100 : Detector ℝ)).2 10 hy
      (by simp [getCenterInFpPixels, getCenterInDetectorPixels, getNQuarter, makeScalingMmToPx,
        LinearTransform.makeScaling, LinearTransform.apply, plainDetector])

/-- C6: on a detector on which `getYaw` returns `t`, `computeX0Y0(det, x0, y0)` returns
`((off.x + x0) cos t + (off.y + y0) sin t, -(off.x + x0) sin t + (off.y + y0) cos t)` with
`off = getCenterInFpPixels(det) - getCenterInDetectorPixels(det)`, where
`getCenterInDetectorPixels` is the axis-swapped pixel-frame center when the quarter count
is odd. -/
theorem computeX0Y0_formula (T : Trig α) (det : Detector α) (t x0 y0 : α)
    (h : getYaw det = .ok t) :
    computeX0Y0 T det x0 y0 =
      .ok ⟨((getCenterInFpPixels det).x - (getCenterInDetectorPixels det).x + x0) * T.cos t
            + ((getCenterInFpPixels det).y - (getCenterInDetectorPixels det).y + y0) * T.sin t,
          -((getCenterInFpPixels det).x - (getCenterInDetectorPixels det).x + x0) * T.sin t
            + ((getCenterInFpPixels det).y - (getCenterInDetectorPixels det).y + y0)
                * T.cos t⟩ ∧
    (Odd det.getOrientation.getNQuarter →
      getCenterInDetectorPixels det =
        ⟨(det.getCenter CameraSys.PIXELS).y, (det.getCenter CameraSys.PIXELS).x⟩) :=
  ⟨computeX0Y0_of_ok T det x0 y0 t h, getCenterInDetectorPixels_of_odd det⟩

/-- Witness for C6: quarter count 1 with raw yaw 90 (yaw 0), pixel-frame center (1, 2)
swapped to (2, 1), focal-plane center (3, 5) in pixels, so `off = (1, 4)`; the origin
`(5, 0)` gives `(6, 4)`. -/
theorem computeX0Y0_formula_witness :
    computeX0Y0 (Trig.ofRad Real.cos Real.sin (Real.pi / 180))
        (offsetDetector 1 90 : Detector ℝ) 5 0 = .ok ⟨6, 4⟩ := by
  have hy : getYaw (offsetDetector 1 90 : Detector ℝ) = .ok 0 := by
    rw [getYaw_eq]; simp [specResidual, offsetDetector]
  have h := (computeX0Y0_formula (Trig.ofRad Real.cos Real.sin (Real.pi / 180))
    (offsetDetector 1 90 : Detector ℝ) 0 5 0 hy).1
  rw [h, getCenterInDetectorPixels_of_odd _ (by decide)]
  simp [Trig.ofRad, getCenterInFpPixels, makeScalingMmToPx, LinearTransform.makeScaling,
    LinearTransform.apply, offsetDetector]
  norm_num

/-- C9: on a detector on which `getYaw` returns 0 degrees, `detPxToFpPxRot(det, p)` is
`p - getCenterInDetectorPixels(det) + getCenterInFpPixels(det)`, each coordinate of the
result depending on the same coordinate of `p` only; `getYaw` returns 0 for raw yaw
`90*n` when the quarter count `n` is 0 or not a multiple of 4. -/
theorem detPxToFpPxRot_zero_yaw (det : Detector ℝ) (p : Point2D ℝ) :
    (getYaw det = .ok 0 →
      detPxToFpPxRot (Trig.ofRad Real.cos Real.sin (Real.pi / 180)) det p =
        .ok ⟨p.x - (getCenterInDetectorPixels det).x + (getCenterInFpPixels det).x,
            p.y - (getCenterInDetectorPixels det).y + (getCenterInFpPixels det).y⟩) ∧
    (det.getOrientation.getYaw = 90 * (det.getOrientation.getNQuarter : ℝ) →
      det.getOrientation.getNQuarter = 0 ∨ det.getOrientation.getNQuarter % 4 ≠ 0 →
      getYaw det = .ok 0) := by
  constructor
  · intro h
    rw [detPxToFpPxRot_of_ok _ det p 0 h]
    simp only [Trig.ofRad, zero_mul, Real.cos_zero, Real.sin_zero, one_mul, sub_zero,
      zero_add, Except.ok.injEq, Point2D.mk.injEq]
    constructor <;> ring
  · intro hY hn
    have h := getYaw_ok_of_lt det
    rw [specResidual_of_zero_or_not_dvd _ _ hn, hY] at h
    have e : 90 * (det.getOrientation.getNQuarter : ℝ)
        - (det.getOrientation.getNQuarter : ℝ) * 90 = 0 := by ring
    rw [e] at h
    exact h (by norm_num)

/-- Witness for C9: quarter count 1 with raw yaw 90 has yaw 0; the point (10, 20) goes to
`(10 - 2 + 3, 20 - 1 + 5) = (11, 24)`. -/
theorem detPxToFpPxRot_zero_yaw_witness :
    getYaw (offsetDetector 1 90 : Detector ℝ) = .ok 0 ∧
    detPxToFpPxRot (Trig.ofRad Real.cos Real.sin (Real.pi / 180))
        (offsetDetector 1 90 : Detector ℝ) ⟨10, 20⟩ = .ok ⟨11, 24⟩ := by
  have hy : getYaw (offsetDetector 1 90 : Detector ℝ) = .ok 0 :=
    (detPxToFpPxRot_zero_yaw (offsetDetector 1 90 : Detector ℝ) ⟨10, 20⟩).2
      (by simp [offsetDetector]) (Or.inr (by decide))
  refine ⟨hy, ?_⟩
  rw [(detPxToFpPxRot_zero_yaw (offsetDetector 1 90 : Detector ℝ) ⟨10, 20⟩).1 hy,
    getCenterInDetectorPixels_of_odd _ (by decide)]
  simp [getCenterInFpPixels, makeScalingMmToPx, LinearTransform.makeScaling,
    LinearTransform.apply, offsetDetector]
  norm_num

end Rotated

/-! ## The center locators and the unit scaler -/

section Centers

variable {α : Type} [LinearOrderedField α]

/-- C8: with pixel-frame center `(cx, cy)`, `getCenterInDetectorPixels` returns `(cx, cy)`
when the quarter count is even and `(cy, cx)` when it is odd, for every integer quarter
count, the parity being tested with the truncating remainder. -/
theorem getCenterInDetectorPixels_parity (det : Detector α) :
    (Even det.getOrientation.getNQuarter →
      getCenterInDetectorPixels det = det.getCenter CameraSys.PIXELS) ∧
    (Odd det.getOrientation.getNQuarter →
      getCenterInDetectorPixels det =
        ⟨(det.getCenter CameraSys.PIXELS).y, (det.getCenter CameraSys.PIXELS).x⟩) :=
  ⟨getCenterInDetectorPixels_of_even det, getCenterInDetectorPixels_of_odd det⟩

/-- Witness for C8: the quarter counts 0, 1, 2, 3, -1 and -2 on a detector with pixel-frame
center (1, 2). -/
theorem getCenterInDetectorPixels_parity_witness :
    getCenterInDetectorPixels (offsetDetector 0 0 : Detector ℚ) = ⟨1, 2⟩ ∧
    getCenterInDetectorPixels (offsetDetector 1 0 : Detector ℚ) = ⟨2, 1⟩ ∧
    getCenterInDetectorPixels (offsetDetector 2 0 : Detector ℚ) = ⟨1, 2⟩ ∧
    getCenterInDetectorPixels (offsetDetector 3 0 : Detector ℚ) = ⟨2, 1⟩ ∧
    getCenterInDetectorPixels (offsetDetector (-1) 0 : Detector ℚ) = ⟨2, 1⟩ ∧
    getCenterInDetectorPixels (offsetDetector (-2) 0 : Detector ℚ) = ⟨1, 2⟩ :=
  ⟨(getCenterInDetectorPixels_parity (offsetDetector 0 0 : Detector ℚ)).1 (by decide),
   (getCenterInDetectorPixels_parity (offsetDetector 1 0 : Detector ℚ)).2 (by decide),
   (getCenterInDetectorPixels_parity (offsetDetector 2 0 : Detector ℚ)).1 (by decide),
   (getCenterInDetectorPixels_parity (offsetDetector 3 0 : Detector ℚ)).2 (by decide),
   (getCenterInDetectorPixels_parity (offsetDetector (-1) 0 : Detector ℚ)).2 (by decide),
   (getCenterInDetectorPixels_parity (offsetDetector (-2) 0 : Detector ℚ)).1 (by decide)⟩

/-- C10: for a pixel size `(sx, sy)` with both components strictly positive, the transform
`makeScalingMmToPx((sx, sy))` maps `(x, y)` to `(x/sx, y/sy)`; `makeScalingMmToPx((2, 4))`
maps `(2, 4)` to `(1, 1)`; and `getCenterInFpPixels(det)` is `makeScalingMmToPx` of the pixel
size applied to the focal-plane center in mm. -/
theorem makeScalingMmToPx_apply (sx sy x y : α) (det : Detector α)
    (hx : 0 < sx) (hy : 0 < sy) :
    (makeScalingMmToPx ⟨sx, sy⟩).apply ⟨x, y⟩ = ⟨x / sx, y / sy⟩ ∧
    (makeScalingMmToPx (⟨2, 4⟩ : Extent2D α)).apply ⟨2, 4⟩ = ⟨1, 1⟩ ∧
    getCenterInFpPixels det =
      (makeScalingMmToPx det.getPixelSize).apply (det.getCenter CameraSys.FOCAL_PLANE) := by
  have hx0 : sx ≠ 0 := ne_of_gt hx
  have hy0 : sy ≠ 0 := ne_of_gt hy
  refine ⟨?_, ?_, rfl⟩
  · simp only [makeScalingMmToPx, LinearTransform.makeScaling, LinearTransform.apply,
      Point2D.mk.injEq]
    constructor <;> field_simp
  · simp only [makeScalingMmToPx, LinearTransform.makeScaling, LinearTransform.apply,
      Point2D.mk.injEq]
    constructor <;> norm_num

/-- Witness for C10: pixel size (2, 4) mm; the point (6, 20) mm, which is the focal-plane
center of the detector, is at pixel (3, 5). -/
theorem makeScalingMmToPx_apply_witness :
    (makeScalingMmToPx (⟨2, 4⟩ : Extent2D ℚ)).apply ⟨6, 20⟩ = ⟨3, 5⟩ ∧
    getCenterInFpPixels (offsetDetector 0 0 : Detector ℚ) = ⟨3, 5⟩ := by
  have h := makeScalingMmToPx_apply (2 : ℚ) 4 6 20 (offsetDetector 0 0) (by norm_num)
    (by norm_num)
  have e : (⟨6 / 2, 20 / 4⟩ : Point2D ℚ) = ⟨3, 5⟩ := by norm_num
  refine ⟨h.1.trans e, ?_⟩
  rw [h.2.2]
  exact h.1.trans e

end Centers

/-! ## The two point transformers compared -/

section Equivalence

theorem cos_quarters (t : ℝ) (n : Int) (h : n % 4 = 0) :
    Real.cos ((90 * (n : ℝ) + t) * (Real.pi / 180)) = Real.cos (t * (Real.pi / 180)) := by
  obtain ⟨k, hk⟩ := Int.dvd_of_emod_eq_zero h
  have e : (90 * (n : ℝ) + t) * (Real.pi / 180)
      = t * (Real.pi / 180) + (k : ℝ) * (2 * Real.pi) := by
    rw [hk]; push_cast; ring
  rw [e, Real.cos_add_int_mul_two_pi]

theorem sin_quarters (t : ℝ) (n : Int) (h : n % 4 = 0) :
    Real.sin ((90 * (n : ℝ) + t) * (Real.pi / 180)) = Real.sin (t * (Real.pi / 180)) := by
  obtain ⟨k, hk⟩ := Int.dvd_of_emod_eq_zero h
  have e : (90 * (n : ℝ) + t) * (Real.pi / 180)
      = t * (Real.pi / 180) + (k : ℝ) * (2 * Real.pi) := by
    rw [hk]; push_cast; ring
  rw [e, Real.sin_add_int_mul_two_pi]

theorem isRotationThenPitch_iff_shift_zero (T : Trig ℝ) (det : Detector ℝ) (θ : ℝ) :
    IsRotationThenPitch T det θ ↔ IsRotationPitchShift T det θ ⟨0, 0⟩ := by
  unfold IsRotationThenPitch IsRotationPitchShift
  simp only [add_zero]

theorem quarters_of_cos_sin_eq (t : ℝ) (n : Int)
    (hc : Real.cos ((90 * (n : ℝ) + t) * (Real.pi / 180)) = Real.cos (t * (Real.pi / 180)))
    (hs : Real.sin ((90 * (n : ℝ) + t) * (Real.pi / 180)) = Real.sin (t * (Real.pi / 180))) :
    n % 4 = 0 := by
  have hang : (((90 * (n : ℝ) + t) * (Real.pi / 180) : ℝ) : Real.Angle)
      = ((t * (Real.pi / 180) : ℝ) : Real.Angle) :=
    Real.Angle.cos_sin_inj (by simpa using hc) (by simpa using hs)
  obtain ⟨k, hk⟩ := Real.Angle.angle_eq_iff_two_pi_dvd_sub.1 hang
  have hpi : Real.pi ≠ 0 := Real.pi_ne_zero
  have hnk : (n : ℝ) = ((4 * k : Int) : ℝ) := by
    push_cast
    field_simp at hk
    nlinarith [hk, Real.pi_pos]
  have hn : n = 4 * k := by exact_mod_cast hnk
  omega

/-- C7, counterexample: the detector mounted a quarter turn round (quarter count 1, raw yaw
90, so `getYaw` returns 0) has as native transform exactly the rotation by `1*90 + 0` degrees
with unit pixel pitch, and its focal-plane center is the image of its pixel-frame center;
yet at the point (1, 1) of its box `detPxToFpPx` gives (-1, 1) and `detPxToFpPxRot` gives
(-3, 1). -/
theorem detPxToFpPx_rot_counterexample :
    IsRotationThenPitch (Trig.ofRad Real.cos Real.sin (Real.pi / 180))
      (quarterTurnDetector : Detector ℝ) (90 * ((1 : Int) : ℝ) + 0) ∧
    getYaw (quarterTurnDetector : Detector ℝ) = .ok 0 ∧
    (quarterTurnDetector : Detector ℝ).getCenter CameraSys.FOCAL_PLANE =
      (quarterTurnDetector : Detector ℝ).transform
        ((quarterTurnDetector : Detector ℝ).getCenter CameraSys.PIXELS)
        CameraSys.PIXELS CameraSys.FOCAL_PLANE ∧
    (quarterTurnDetector : Detector ℝ).getBBox.contains (⟨1, 1⟩ : Point2D ℝ) ∧
    detPxToFpPx (quarterTurnDetector : Detector ℝ) ⟨1, 1⟩ = ⟨-1, 1⟩ ∧
    detPxToFpPxRot (Trig.ofRad Real.cos Real.sin (Real.pi / 180))
      (quarterTurnDetector : Detector ℝ) ⟨1, 1⟩ = .ok ⟨-3, 1⟩ ∧
    detPxToFpPxRot (Trig.ofRad Real.cos Real.sin (Real.pi / 180))
        (quarterTurnDetector : Detector ℝ) ⟨1, 1⟩ ≠
      .ok (detPxToFpPx (quarterTurnDetector : Detector ℝ) ⟨1, 1⟩) := by
  have hy : getYaw (quarterTurnDetector : Detector ℝ) = .ok 0 := by
    rw [getYaw_eq]; simp [specResidual, quarterTurnDetector]
  have hang : (90 * ((1 : Int) : ℝ) + 0) * (Real.pi / 180) = Real.pi / 2 := by
    push_cast; ring
  have hfp : detPxToFpPx (quarterTurnDetector : Detector ℝ) ⟨1, 1⟩ = ⟨-1, 1⟩ := by
    simp [detPxToFpPx, makeScalingMmToPx, LinearTransform.makeScaling, LinearTransform.apply,
      quarterTurnDetector]
  have hrot : detPxToFpPxRot (Trig.ofRad Real.cos Real.sin (Real.pi / 180))
      (quarterTurnDetector : Detector ℝ) ⟨1, 1⟩ = .ok ⟨-3, 1⟩ := by
    rw [detPxToFpPxRot_of_ok _ _ _ 0 hy, getCenterInDetectorPixels_of_odd _ (by decide)]
    simp [Trig.ofRad, getCenterInFpPixels, makeScalingMmToPx, LinearTransform.makeScaling,
      LinearTransform.apply, quarterTurnDetector]
    norm_num
  refine ⟨?_, hy, rfl, ?_, hfp, hrot, ?_⟩
  · intro p
    simp only [Trig.ofRad, hang, Real.cos_pi_div_two, Real.sin_pi_div_two, quarterTurnDetector]
    simp
  · simp [Box2I.contains, quarterTurnDetector]
  · rw [hrot, hfp]
    intro h
    have hx := congrArg Point2D.x (Except.ok.inj h)
    norm_num at hx

/-- C7, amended: on a detector with strictly positive pixel size on which `getYaw` returns
`t` and whose native transform is exactly the rotation by `nQuarter*90 + t` degrees followed
by the pixel pitch scaling and a translation by `f` mm, `detPxToFpPxRot(det, p)` returns
`detPxToFpPx(det, p)` for every point `p` if and only if the quarter count is a multiple of 4
and `f` is the center offset `getCenterInFpPixels - getCenterInDetectorPixels` in mm. -/
theorem detPxToFpPx_eq_rot (det : Detector ℝ) (t : ℝ) (f : Point2D ℝ)
    (hy : getYaw det = .ok t)
    (hrot : IsRotationPitchShift (Trig.ofRad Real.cos Real.sin (Real.pi / 180)) det
      (90 * (det.getOrientation.getNQuarter : ℝ) + t) f)
    (hsx : 0 < det.getPixelSize.x) (hsy : 0 < det.getPixelSize.y) :
    (∀ p : Point2D ℝ,
      detPxToFpPxRot (Trig.ofRad Real.cos Real.sin (Real.pi / 180)) det p =
        .ok (detPxToFpPx det p)) ↔
    (det.getOrientation.getNQuarter % 4 = 0 ∧
      f.x = det.getPixelSize.x
        * ((getCenterInFpPixels det).x - (getCenterInDetectorPixels det).x) ∧
      f.y = det.getPixelSize.y
        * ((getCenterInFpPixels det).y - (getCenterInDetectorPixels det).y)) := by
  have hx0 : det.getPixelSize.x ≠ 0 := ne_of_gt hsx
  have hy0 : det.getPixelSize.y ≠ 0 := ne_of_gt hsy
  have hfp : ∀ p : Point2D ℝ, detPxToFpPx det p =
      ⟨Real.cos ((90 * (det.getOrientation.getNQuarter : ℝ) + t) * (Real.pi / 180)) * p.x
          - Real.sin ((90 * (det.getOrientation.getNQuarter : ℝ) + t) * (Real.pi / 180)) * p.y
          + f.x / det.getPixelSize.x,
        Real.sin ((90 * (det.getOrientation.getNQuarter : ℝ) + t) * (Real.pi / 180)) * p.x
          + Real.cos ((90 * (det.getOrientation.getNQuarter : ℝ) + t) * (Real.pi / 180)) * p.y
          + f.y / det.getPixelSize.y⟩ := by
    intro p
    unfold detPxToFpPx
    rw [hrot p]
    simp only [Trig.ofRad, makeScalingMmToPx, LinearTransform.makeScaling,
      LinearTransform.apply, Point2D.mk.injEq]
    constructor <;> field_simp <;> ring
  constructor
  · intro h
    have h0 := h ⟨0, 0⟩
    have h1 := h ⟨1, 0⟩
    rw [detPxToFpPxRot_of_ok _ det _ t hy, hfp] at h0 h1
    simp only [Trig.ofRad, Except.ok.injEq, Point2D.mk.injEq, mul_zero, mul_one, sub_zero,
      add_zero, zero_add, zero_sub] at h0 h1
    obtain ⟨h0x, h0y⟩ := h0
    obtain ⟨h1x, h1y⟩ := h1
    have hfx : f.x / det.getPixelSize.x
        = (getCenterInFpPixels det).x - (getCenterInDetectorPixels det).x := by linarith
    have hfy : f.y / det.getPixelSize.y
        = (getCenterInFpPixels det).y - (getCenterInDetectorPixels det).y := by linarith
    refine ⟨quarters_of_cos_sin_eq t _ (by linarith) (by linarith), ?_, ?_⟩
    · rw [← hfx]; field_simp
    · rw [← hfy]; field_simp
  · rintro ⟨hn, hfx, hfy⟩ p
    rw [detPxToFpPxRot_of_ok _ det p t hy, hfp, hfx, hfy]
    simp only [Trig.ofRad, cos_quarters t _ hn, sin_quarters t _ hn, Except.ok.injEq,
      Point2D.mk.injEq]
    constructor <;> field_simp <;> ring

/-- Witness for C7 (amended): quarter count 4 with raw yaw 10 (yaw 10), pixel pitch (2, 4),
pixel-frame center (1, 2) and focal-plane center (3, 5) in pixels, native transform the
rotation by 370 degrees with translation (4, 12) mm, which is the center offset (2, 3) in
mm: the two transformers agree at the point (1, 1). -/
theorem detPxToFpPx_eq_rot_witness :
    detPxToFpPxRot (Trig.ofRad Real.cos Real.sin (Real.pi / 180))
        (shiftedDetector (Trig.ofRad Real.cos Real.sin (Real.pi / 180)) 4 10 10) ⟨1, 1⟩ =
      .ok (detPxToFpPx
        (shiftedDetector (Trig.ofRad Real.cos Real.sin (Real.pi / 180)) 4 10 10) ⟨1, 1⟩) :=
  (detPxToFpPx_eq_rot
    (shiftedDetector (Trig.ofRad Real.cos Real.sin (Real.pi / 180)) 4 10 10) 10 ⟨4, 12⟩
    (by rw [getYaw_eq]; simp [specResidual, shiftedDetector]; norm_num [abs_lt])
    (by intro p; rfl)
    (by simp [shiftedDetector])
    (by simp [shiftedDetector])).2
    ⟨by decide,
      by
        rw [getCenterInDetectorPixels_of_even _ (by decide)]
        simp [getCenterInFpPixels, makeScalingMmToPx, LinearTransform.makeScaling,
          LinearTransform.apply, shiftedDetector]
        norm_num,
      by
        rw [getCenterInDetectorPixels_of_even _ (by decide)]
        simp [getCenterInFpPixels, makeScalingMmToPx, LinearTransform.makeScaling,
          LinearTransform.apply, shiftedDetector]
        norm_num⟩ ⟨1, 1⟩

end Equivalence

/-! ## Sign conventions, the range of the yaw, and the propagation of the fault -/

section Faults

variable {α : Type} [LinearOrderedField α]

/-- C11: `computeX0Y0` rotates `off + (x0, y0)` by `-yaw` while `detPxToFpPxRot` rotates its
point by `+yaw`. On a detector on which `getYaw` returns `t`, with
`off = getCenterInFpPixels(det) - getCenterInDetectorPixels(det)`: `detPxToFpPxRot(det, p)`
is `(cos t * p.x - sin t * p.y, sin t * p.x + cos t * p.y) + off`; `computeX0Y0(det, x0, y0)`
is the same rotation formula at the angle `-t` applied to `off + (x0, y0)`; and the `+t`
rotation applied to the result `q` of `computeX0Y0` gives back `off + (x0, y0)`, so that
`detPxToFpPxRot(det, q)` is `off + (x0, y0) + off`. -/
theorem computeX0Y0_rotated_back (det : Detector ℝ) (t x0 y0 : ℝ)
    (h : getYaw det = .ok t) :
    (∀ p : Point2D ℝ,
      detPxToFpPxRot (Trig.ofRad Real.cos Real.sin (Real.pi / 180)) det p =
        .ok ⟨(Trig.ofRad Real.cos Real.sin (Real.pi / 180)).cos t * p.x
              - (Trig.ofRad Real.cos Real.sin (Real.pi / 180)).sin t * p.y
              + ((getCenterInFpPixels det).sub (getCenterInDetectorPixels det)).x,
            (Trig.ofRad Real.cos Real.sin (Real.pi / 180)).sin t * p.x
              + (Trig.ofRad Real.cos Real.sin (Real.pi / 180)).cos t * p.y
              + ((getCenterInFpPixels det).sub (getCenterInDetectorPixels det)).y⟩) ∧
    computeX0Y0 (Trig.ofRad Real.cos Real.sin (Real.pi / 180)) det x0 y0 =
      .ok ⟨(Trig.ofRad Real.cos Real.sin (Real.pi / 180)).cos (-t)
              * (((getCenterInFpPixels det).sub (getCenterInDetectorPixels det)).x + x0)
            - (Trig.ofRad Real.cos Real.sin (Real.pi / 180)).sin (-t)
              * (((getCenterInFpPixels det).sub (getCenterInDetectorPixels det)).y + y0),
          (Trig.ofRad Real.cos Real.sin (Real.pi / 180)).sin (-t)
              * (((getCenterInFpPixels det).sub (getCenterInDetectorPixels det)).x + x0)
            + (Trig.ofRad Real.cos Real.sin (Real.pi / 180)).cos (-t)
              * (((getCenterInFpPixels det).sub (getCenterInDetectorPixels det)).y + y0)⟩ ∧
    ∃ q : Point2D ℝ,
      computeX0Y0 (Trig.ofRad Real.cos Real.sin (Real.pi / 180)) det x0 y0 = .ok q ∧
      (Trig.ofRad Real.cos Real.sin (Real.pi / 180)).cos t * q.x
          - (Trig.ofRad Real.cos Real.sin (Real.pi / 180)).sin t * q.y
        = ((getCenterInFpPixels det).sub (getCenterInDetectorPixels det)).x + x0 ∧
      (Trig.ofRad Real.cos Real.sin (Real.pi / 180)).sin t * q.x
          + (Trig.ofRad Real.cos Real.sin (Real.pi / 180)).cos t * q.y
        = ((getCenterInFpPixels det).sub (getCenterInDetectorPixels det)).y + y0 ∧
      detPxToFpPxRot (Trig.ofRad Real.cos Real.sin (Real.pi / 180)) det q =
        .ok ⟨((getCenterInFpPixels det).sub (getCenterInDetectorPixels det)).x + x0
              + ((getCenterInFpPixels det).sub (getCenterInDetectorPixels det)).x,
            ((getCenterInFpPixels det).sub (getCenterInDetectorPixels det)).y + y0
              + ((getCenterInFpPixels det).sub (getCenterInDetectorPixels det)).y⟩ := by
  have hcs := Real.cos_sq_add_sin_sq (t * (Real.pi / 180))
  refine ⟨?_, ?_, _, computeX0Y0_of_ok _ det x0 y0 t h, ?_, ?_, ?_⟩
  · intro p
    rw [detPxToFpPxRot_of_ok _ det p t h]
    simp only [Trig.ofRad, Point2D.sub, Except.ok.injEq, Point2D.mk.injEq]
    constructor <;> ring
  · rw [computeX0Y0_of_ok _ det x0 y0 t h]
    simp only [Trig.ofRad, Point2D.sub, neg_mul, Real.cos_neg, Real.sin_neg, Except.ok.injEq,
      Point2D.mk.injEq]
    constructor <;> ring
  · simp only [Trig.ofRad, Point2D.sub]
    linear_combination
      ((getCenterInFpPixels det).x - (getCenterInDetectorPixels det).x + x0) * hcs
  · simp only [Trig.ofRad, Point2D.sub]
    linear_combination
      ((getCenterInFpPixels det).y - (getCenterInDetectorPixels det).y + y0) * hcs
  · rw [detPxToFpPxRot_of_ok _ det _ t h]
    simp only [Trig.ofRad, Point2D.sub, Except.ok.injEq, Point2D.mk.injEq]
    constructor
    · linear_combination
        ((getCenterInFpPixels det).x - (getCenterInDetectorPixels det).x + x0) * hcs
    · linear_combination
        ((getCenterInFpPixels det).y - (getCenterInDetectorPixels det).y + y0) * hcs

/-- Witness for C11: quarter count 1 with raw yaw 100 has yaw 10; the centers (3, 5) and
(2, 1) give `off = (1, 4)`; the result `q` of `computeX0Y0(det, 5, 0)` rotated by +10
degrees is `(6, 4)`, and `detPxToFpPxRot(det, q)` is `(7, 8)`. -/
theorem computeX0Y0_rotated_back_witness :
    ∃ q : Point2D ℝ,
      computeX0Y0 (Trig.ofRad Real.cos Real.sin (Real.pi / 180))
        (offsetDetector 1 100 : Detector ℝ) 5 0 = .ok q ∧
      Real.cos (10 * (Real.pi / 180)) * q.x - Real.sin (10 * (Real.pi / 180)) * q.y = 6 ∧
      Real.sin (10 * (Real.pi / 180)) * q.x + Real.cos (10 * (Real.pi / 180)) * q.y = 4 ∧
      detPxToFpPxRot (Trig.ofRad Real.cos Real.sin (Real.pi / 180))
        (offsetDetector 1 100 : Detector ℝ) q = .ok ⟨7, 8⟩ := by
  have hy : getYaw (offsetDetector 1 100 : Detector ℝ) = .ok 10 := by
    rw [getYaw_eq]; simp [specResidual, offsetDetector]; norm_num [abs_lt]
  have hoff : (getCenterInFpPixels (offsetDetector 1 100 : Detector ℝ)).sub
      (getCenterInDetectorPixels (offsetDetector 1 100 : Detector ℝ)) = ⟨1, 4⟩ := by
    rw [getCenterInDetectorPixels_of_odd _ (by decide)]
    simp [Point2D.sub, getCenterInFpPixels, makeScalingMmToPx, LinearTransform.makeScaling,
      LinearTransform.apply, offsetDetector]
    norm_num
  obtain ⟨_, _, q, hq, hx, hy', hr⟩ :=
    computeX0Y0_rotated_back (offsetDetector 1 100 : Detector ℝ) 10 5 0 hy
  rw [hoff] at hx hy' hr
  refine ⟨q, hq, ?_, ?_, ?_⟩
  · simp only [Trig.ofRad] at hx
    rw [hx]; norm_num
  · simp only [Trig.ofRad] at hy'
    rw [hy']; norm_num
  · rw [hr]; norm_num

/-- C12: whenever `getYaw` returns a value, that value lies strictly between -90 and 90
degrees, for every detector, quarter count and raw yaw. -/
theorem getYaw_range (det : Detector α) (t : α) (h : getYaw det = .ok t) :
    -90 < t ∧ t < 90 := by
  rw [getYaw_eq] at h
  split at h
  · cases h
  · rename_i hlt
    have ht := Except.ok.inj h
    rw [← ht]
    exact abs_lt.1 (not_le.1 hlt)

/-- Witness for C12: quarter count -1 with raw yaw -80 has yaw 10. -/
theorem getYaw_range_witness :
    getYaw (plainDetector (-1) (-80) : Detector ℚ) = .ok 10 ∧
    (-90 : ℚ) < 10 ∧ (10 : ℚ) < 90 := by
  have hy : getYaw (plainDetector (-1) (-80) : Detector ℚ) = .ok 10 := by
    rw [getYaw_eq]; simp [specResidual, plainDetector]; norm_num [abs_lt]
  exact ⟨hy, getYaw_range (plainDetector (-1) (-80) : Detector ℚ) 10 hy⟩

/-- C13: on a detector with strictly positive pixel size, `detPxToFpPxRot(det, p)` and
`computeX0Y0(det, x0, y0)` throw exactly when `getYaw(det)` throws, and throw the very error
of `getYaw`: each call fails with `e` if and only if `getYaw` fails with `e`, so each fails
if and only if `getYaw` fails. -/
theorem yaw_fault_propagates (T : Trig α) (det : Detector α) (p : Point2D α) (x0 y0 : α)
    (_hsx : 0 < det.getPixelSize.x) (_hsy : 0 < det.getPixelSize.y) :
    (∀ e, detPxToFpPxRot T det p = .error e ↔ getYaw det = .error e) ∧
    (∀ e, computeX0Y0 T det x0 y0 = .error e ↔ getYaw det = .error e) ∧
    ((∃ e, detPxToFpPxRot T det p = .error e) ↔ ∃ e, getYaw det = .error e) ∧
    ((∃ e, computeX0Y0 T det x0 y0 = .error e) ↔ ∃ e, getYaw det = .error e) := by
  cases hg : getYaw det with
  | error e' =>
    rw [detPxToFpPxRot_of_error T det p e' hg, computeX0Y0_of_error T det x0 y0 e' hg]
    simp
  | ok t =>
    rw [detPxToFpPxRot_of_ok T det p t hg, computeX0Y0_of_ok T det x0 y0 t hg]
    simp

/-- Witness for C13: pixel size (2, 4), quarter count 0 and raw yaw 90: `getYaw` throws, and
both `detPxToFpPxRot` and `computeX0Y0` throw the same error. -/
theorem yaw_fault_propagates_witness :
    detPxToFpPxRot (Trig.ofRad Real.cos Real.sin (Real.pi / 180))
        (offsetDetector 0 90 : Detector ℝ) ⟨1, 1⟩ = .error ⟨90, 0, 7, 90⟩ ∧
    computeX0Y0 (Trig.ofRad Real.cos Real.sin (Real.pi / 180))
        (offsetDetector 0 90 : Detector ℝ) 5 0 = .error ⟨90, 0, 7, 90⟩ := by
  have hy : getYaw (offsetDetector 0 90 : Detector ℝ) = .error ⟨90, 0, 7, 90⟩ := by
    rw [getYaw_eq]; simp [specResidual, offsetDetector]
  have h := yaw_fault_propagates (Trig.ofRad Real.cos Real.sin (Real.pi / 180))
    (offsetDetector 0 90 : Detector ℝ) ⟨1, 1⟩ 5 0
    (by simp [offsetDetector]) (by simp [offsetDetector])
  exact ⟨(h.1 _).2 hy, (h.2.1 _).2 hy⟩

end Faults

/-! ## The operations that do not read the yaw, and the content of the error -/

section Total

variable {α : Type} [LinearOrderedField α]

/-- C14: on a detector with strictly positive pixel size that `getYaw` rejects, `getNQuarter`,
`makeScalingMmToPx`, `getCenterInFpPixels`, `getCenterInDetectorPixels`, `getWidth`,
`getHeight` and `detPxToFpPx` still return their values, none of which reads the yaw; and
`detPxToFpPx(det, p)` is the same on any detector that differs from `det` only in its
orientation (raw yaw and quarter count). -/
theorem unchecked_operations_total (det : Detector α) (p : Point2D α)
    (e : InvalidParameterError α) (o : Orientation α)
    (hsx : 0 < det.getPixelSize.x) (hsy : 0 < det.getPixelSize.y)
    (_hbad : getYaw det = .error e) :
    getNQuarter det = det.getOrientation.getNQuarter ∧
    makeScalingMmToPx det.getPixelSize =
      ⟨1 / det.getPixelSize.x, 0, 0, 1 / det.getPixelSize.y⟩ ∧
    getCenterInFpPixels det =
      ⟨(det.getCenter CameraSys.FOCAL_PLANE).x / det.getPixelSize.x,
        (det.getCenter CameraSys.FOCAL_PLANE).y / det.getPixelSize.y⟩ ∧
    (getCenterInDetectorPixels det = det.getCenter CameraSys.PIXELS ∨
      getCenterInDetectorPixels det =
        ⟨(det.getCenter CameraSys.PIXELS).y, (det.getCenter CameraSys.PIXELS).x⟩) ∧
    getWidth det = det.getBBox.getWidth ∧
    getHeight det = det.getBBox.getHeight ∧
    detPxToFpPx det p =
      ⟨(det.transform p CameraSys.PIXELS CameraSys.FOCAL_PLANE).x / det.getPixelSize.x,
        (det.transform p CameraSys.PIXELS CameraSys.FOCAL_PLANE).y / det.getPixelSize.y⟩ ∧
    detPxToFpPx { det with getOrientation := o } p = detPxToFpPx det p := by
  have hx0 : det.getPixelSize.x ≠ 0 := ne_of_gt hsx
  have hy0 : det.getPixelSize.y ≠ 0 := ne_of_gt hsy
  refine ⟨rfl, rfl, ?_, ?_, rfl, rfl, ?_, rfl⟩
  · simp only [getCenterInFpPixels, makeScalingMmToPx, LinearTransform.makeScaling,
      LinearTransform.apply, Point2D.mk.injEq]
    constructor <;> field_simp
  · rcases Int.even_or_odd det.getOrientation.getNQuarter with hn | hn
    · exact Or.inl (getCenterInDetectorPixels_of_even det hn)
    · exact Or.inr (getCenterInDetectorPixels_of_odd det hn)
  · simp only [detPxToFpPx, makeScalingMmToPx, LinearTransform.makeScaling,
      LinearTransform.apply, Point2D.mk.injEq]
    constructor <;> field_simp

/-- Witness for C14: pixel size (2, 4), quarter count 1 and raw yaw 0 (residual -90, rejected
by `getYaw`); the focal-plane center is (3, 5), the pixel-frame center is swapped to (2, 1),
the point (1, 1) goes to (1, 1), also after the orientation is replaced by quarter count 0
and raw yaw 0. -/
theorem unchecked_operations_total_witness :
    getYaw (offsetDetector 1 0 : Detector ℚ) = .error ⟨0, 1, 7, 90⟩ ∧
    getNQuarter (offsetDetector 1 0 : Detector ℚ) = 1 ∧
    getCenterInFpPixels (offsetDetector 1 0 : Detector ℚ) = ⟨3, 5⟩ ∧
    getCenterInDetectorPixels (offsetDetector 1 0 : Detector ℚ) = ⟨2, 1⟩ ∧
    getWidth (offsetDetector 1 0 : Detector ℚ) = 3 ∧
    getHeight (offsetDetector 1 0 : Detector ℚ) = 5 ∧
    detPxToFpPx (offsetDetector 1 0 : Detector ℚ) ⟨1, 1⟩ = ⟨1, 1⟩ ∧
    detPxToFpPx { (offsetDetector 1 0 : Detector ℚ) with getOrientation := ⟨0, 0⟩ } ⟨1, 1⟩
      = ⟨1, 1⟩ := by
  have hy : getYaw (offsetDetector 1 0 : Detector ℚ) = .error ⟨0, 1, 7, 90⟩ := by
    rw [getYaw_eq]; simp [specResidual, offsetDetector]
  have h := unchecked_operations_total (offsetDetector 1 0 : Detector ℚ) ⟨1, 1⟩ _ ⟨0, 0⟩
    (by simp [offsetDetector]) (by simp [offsetDetector]) hy
  have hfp : detPxToFpPx (offsetDetector 1 0 : Detector ℚ) ⟨1, 1⟩ = ⟨1, 1⟩ := by
    rw [h.2.2.2.2.2.2.1]; simp [offsetDetector]
  refine ⟨hy, h.1, ?_, getCenterInDetectorPixels_of_odd _ (by decide), h.2.2.2.2.1,
    h.2.2.2.2.2.1, hfp, ?_⟩
  · rw [h.2.2.1]; simp [offsetDetector]; norm_num
  · rw [h.2.2.2.2.2.2.2]; exact hfp

/-- C15: when `getYaw` throws, the error carries the raw yaw in degrees, the stored quarter
count, the serial and the absolute value of the residual `R` that was tested against 90
(which is at least 90); and the outcome of `getYaw` is the same on any two detectors with the
same orientation and serial, so nothing in it comes from another field. -/
theorem getYaw_error_content (det det' : Detector α) (e : InvalidParameterError α)
    (h : getYaw det = .error e) :
    e.yawDeg = det.getOrientation.getYaw ∧
    e.nQuarter = det.getOrientation.getNQuarter ∧
    e.serial = det.getSerial ∧
    e.absDeg = |specResidual det.getOrientation.getYaw det.getOrientation.getNQuarter| ∧
    90 ≤ e.absDeg ∧
    (det'.getOrientation = det.getOrientation → det'.getSerial = det.getSerial →
      getYaw det' = .error e) := by
  have h0 := h
  rw [getYaw_eq] at h
  split at h
  · rename_i hle
    have he := Except.error.inj h
    subst he
    refine ⟨rfl, rfl, rfl, rfl, hle, ?_⟩
    intro ho hs
    rw [getYaw_eq, ho, hs, if_pos hle]
  · cases h

/-- Witness for C15: quarter count 1 with raw yaw 200 on a detector with serial 7 is rejected
with the error (200, 1, 7, 110), and so is a detector with other centers, pixel size and
native transform but the same orientation and serial. -/
theorem getYaw_error_content_witness :
    getYaw (plainDetector 1 200 : Detector ℚ) = .error ⟨200, 1, 7, 110⟩ ∧
    getYaw (offsetDetector 1 200 : Detector ℚ) = .error ⟨200, 1, 7, 110⟩ := by
  have hy : getYaw (plainDetector 1 200 : Detector ℚ) = .error ⟨200, 1, 7, 110⟩ := by
    rw [getYaw_eq]; simp [specResidual, plainDetector]; norm_num
  exact ⟨hy, (getYaw_error_content (plainDetector 1 200 : Detector ℚ)
    (offsetDetector 1 200 : Detector ℚ) _ hy).2.2.2.2.2 rfl rfl⟩

end Total

/-! ## The rotated transformer as a rigid motion, and the image of the pixel origin -/

section Rigid

/-- C16: on a detector on which `getYaw` returns `t`, `detPxToFpPxRot` is a rigid motion:
the difference of the images of `p` and `q` is `p - q` rotated by `+t`, and the squared
distance between the images is the squared distance between `p` and `q`, whatever the
centers, the pixel size and the quarter count. -/
theorem detPxToFpPxRot_rigid (det : Detector ℝ) (t : ℝ) (p q : Point2D ℝ)
    (h : getYaw det = .ok t) :
    ∃ P Q : Point2D ℝ,
      detPxToFpPxRot (Trig.ofRad Real.cos Real.sin (Real.pi / 180)) det p = .ok P ∧
      detPxToFpPxRot (Trig.ofRad Real.cos Real.sin (Real.pi / 180)) det q = .ok Q ∧
      P.x - Q.x =
        (Trig.ofRad Real.cos Real.sin (Real.pi / 180)).cos t * (p.x - q.x)
          - (Trig.ofRad Real.cos Real.sin (Real.pi / 180)).sin t * (p.y - q.y) ∧
      P.y - Q.y =
        (Trig.ofRad Real.cos Real.sin (Real.pi / 180)).sin t * (p.x - q.x)
          + (Trig.ofRad Real.cos Real.sin (Real.pi / 180)).cos t * (p.y - q.y) ∧
      (P.x - Q.x) ^ 2 + (P.y - Q.y) ^ 2 = (p.x - q.x) ^ 2 + (p.y - q.y) ^ 2 := by
  refine ⟨_, _, detPxToFpPxRot_of_ok _ det p t h, detPxToFpPxRot_of_ok _ det q t h, ?_, ?_, ?_⟩
  · simp only [Trig.ofRad]
    ring
  · simp only [Trig.ofRad]
    ring
  · have hcs := Real.cos_sq_add_sin_sq (t * (Real.pi / 180))
    simp only [Trig.ofRad]
    linear_combination ((p.x - q.x) ^ 2 + (p.y - q.y) ^ 2) * hcs

/-- Witness for C16: quarter count 1 with raw yaw 100 (yaw 10), centers (3, 5) and (2, 1),
pixel size (2, 4); the images of (3, 4) and (0, 0) are at squared distance 25. -/
theorem detPxToFpPxRot_rigid_witness :
    ∃ P Q : Point2D ℝ,
      detPxToFpPxRot (Trig.ofRad Real.cos Real.sin (Real.pi / 180))
        (offsetDetector 1 100 : Detector ℝ) ⟨3, 4⟩ = .ok P ∧
      detPxToFpPxRot (Trig.ofRad Real.cos Real.sin (Real.pi / 180))
        (offsetDetector 1 100 : Detector ℝ) ⟨0, 0⟩ = .ok Q ∧
      (P.x - Q.x) ^ 2 + (P.y - Q.y) ^ 2 = 25 := by
  have hy : getYaw (offsetDetector 1 100 : Detector ℝ) = .ok 10 := by
    rw [getYaw_eq]; simp [specResidual, offsetDetector]; norm_num [abs_lt]
  obtain ⟨P, Q, hP, hQ, _, _, hd⟩ :=
    detPxToFpPxRot_rigid (offsetDetector 1 100 : Detector ℝ) 10 ⟨3, 4⟩ ⟨0, 0⟩ hy
  refine ⟨P, Q, hP, hQ, ?_⟩
  rw [hd]; norm_num

/-- C17: on a detector on which `getYaw` returns `t`, `detPxToFpPxRot` sends the pixel origin
`(0, 0)` to `getCenterInFpPixels(det) - getCenterInDetectorPixels(det)`, the displacement
`off` of `computeX0Y0`, and `computeX0Y0(det, 0, 0)` is that point rotated by `-t`. -/
theorem detPxToFpPxRot_origin (det : Detector ℝ) (t : ℝ) (h : getYaw det = .ok t) :
    detPxToFpPxRot (Trig.ofRad Real.cos Real.sin (Real.pi / 180)) det ⟨0, 0⟩ =
      .ok ⟨((getCenterInFpPixels det).sub (getCenterInDetectorPixels det)).x,
          ((getCenterInFpPixels det).sub (getCenterInDetectorPixels det)).y⟩ ∧
    (getCenterInFpPixels det).sub (getCenterInDetectorPixels det) =
      ⟨(getCenterInFpPixels det).x - (getCenterInDetectorPixels det).x,
        (getCenterInFpPixels det).y - (getCenterInDetectorPixels det).y⟩ ∧
    computeX0Y0 (Trig.ofRad Real.cos Real.sin (Real.pi / 180)) det 0 0 =
      .ok ⟨(Trig.ofRad Real.cos Real.sin (Real.pi / 180)).cos (-t)
              * ((getCenterInFpPixels det).sub (getCenterInDetectorPixels det)).x
            - (Trig.ofRad Real.cos Real.sin (Real.pi / 180)).sin (-t)
              * ((getCenterInFpPixels det).sub (getCenterInDetectorPixels det)).y,
          (Trig.ofRad Real.cos Real.sin (Real.pi / 180)).sin (-t)
              * ((getCenterInFpPixels det).sub (getCenterInDetectorPixels det)).x
            + (Trig.ofRad Real.cos Real.sin (Real.pi / 180)).cos (-t)
              * ((getCenterInFpPixels det).sub (getCenterInDetectorPixels det)).y⟩ := by
  refine ⟨?_, rfl, ?_⟩
  · rw [detPxToFpPxRot_of_ok _ det _ t h]
    simp only [Point2D.sub, Except.ok.injEq, Point2D.mk.injEq]
    constructor <;> ring
  · rw [computeX0Y0_of_ok _ det 0 0 t h]
    simp only [Trig.ofRad, Point2D.sub, neg_mul, Real.cos_neg, Real.sin_neg, Except.ok.injEq,
      Point2D.mk.injEq]
    constructor <;> ring

/-- Witness for C17: quarter count 1 with raw yaw 90 (yaw 0), centers (3, 5) and (2, 1): the
pixel origin goes to `off = (1, 4)`, and `computeX0Y0(det, 0, 0)` is `(1, 4)` as well. -/
theorem detPxToFpPxRot_origin_witness :
    detPxToFpPxRot (Trig.ofRad Real.cos Real.sin (Real.pi / 180))
        (offsetDetector 1 90 : Detector ℝ) ⟨0, 0⟩ = .ok ⟨1, 4⟩ ∧
    computeX0Y0 (Trig.ofRad Real.cos Real.sin (Real.pi / 180))
        (offsetDetector 1 90 : Detector ℝ) 0 0 = .ok ⟨1, 4⟩ := by
  have hy : getYaw (offsetDetector 1 90 : Detector ℝ) = .ok 0 := by
    rw [getYaw_eq]; simp [specResidual, offsetDetector]
  have h := detPxToFpPxRot_origin (offsetDetector 1 90 : Detector ℝ) 0 hy
  have hoff : (getCenterInFpPixels (offsetDetector 1 90 : Detector ℝ)).sub
      (getCenterInDetectorPixels (offsetDetector 1 90 : Detector ℝ)) = ⟨1, 4⟩ := by
    rw [getCenterInDetectorPixels_of_odd _ (by decide)]
    simp [Point2D.sub, getCenterInFpPixels, makeScalingMmToPx, LinearTransform.makeScaling,
      LinearTransform.apply, offsetDetector]
    norm_num
  rw [hoff] at h
  refine ⟨h.1, ?_⟩
  rw [h.2.2]
  simp [Trig.ofRad]

end Rigid

end MeasMosaic
